import Mathlib

/-!
Verification of the `cctv-exposure` repository (`src/exposure_python/main.py`)
against its natural-language specification.

Shallow-embedding conventions used throughout this file:

* Python floats are modelled as rational numbers (`ℚ`): we verify the
  real-number semantics of the arithmetic, not IEEE-754 rounding.
* The four geometry-kernel primitives (`quick_distance`, `get_bearing`,
  `get_coordinates`, `haversine_distance`, lines 23-67 of `main.py`) evaluate
  transcendental functions (`sin`, `cos`, `log`, `arctan2`) from numpy, which
  have no executable exact embedding.  They are therefore abstracted as a
  parameter structure `Geo` of rational-valued functions; every definition
  above the kernel is translated from the source line by line and is
  parametric in the kernel.  Concrete `Geo` instances used in witnesses and
  counterexamples only take values that the real kernel can realise
  (e.g. a bearing of 350 degrees, or points spaced along a single parallel).
* Fallible Python code (division by zero, `None`/`str` arithmetic, attribute
  access on `None`) is modelled in the `Except PyErr` monad.
* Python's truthiness tests (`if self.radius`, `if point.speed`,
  `if not point.time`, `if predictions`) are translated explicitly at each
  use site.
-/

namespace CCTV

/-- Python runtime errors that the modelled code can raise. -/
inductive PyErr where
  | typeError
  | zeroDivisionError
  | valueError
  | attributeError
  | indexError
deriving DecidableEq, Repr

/-- Python `/` on numbers: raises `ZeroDivisionError` on a zero denominator. -/
def pyDiv (a b : ℚ) : Except PyErr ℚ :=
  if b = 0 then .error .zeroDivisionError else .ok (a / b)

/-- Python `round(x)` and numpy `rint(x)`: round half to even. -/
def pyRound (q : ℚ) : ℤ :=
  let f := ⌊q⌋
  let r := q - f
  if r < 1/2 then f
  else if 1/2 < r then f + 1
  else if 2 ∣ f then f else f + 1

/-- Python `round(x, 2)`: round to two decimal places, half to even. -/
def pyRound2 (q : ℚ) : ℚ := (pyRound (q * 100) : ℚ) / 100

/-- Python `x % 360.0` for float `x`: the representative in `[0, 360)`. -/
def fmod360 (x : ℚ) : ℚ := x - 360 * ⌊x / 360⌋

/-- Module-level constant `resolution = 0.5` (main.py line 13). -/
def resolution : ℚ := 1/2

/-- Instance attribute `self.accept_range = 1.0` (main.py line 76). -/
def accept_range : ℚ := 1

/-- A GPX track point: latitude/longitude in degrees, optional wall-clock
timestamp (modelled as seconds) and optional instantaneous speed (m/s). -/
structure Point where
  latitude : ℚ
  longitude : ℚ
  time : Option ℚ
  speed : Option ℚ
deriving DecidableEq, Repr

instance : Inhabited Point := ⟨⟨0, 0, none, none⟩⟩

/-- `self.points[k]` (all indexing in the source stays in bounds on the runs
we verify; out-of-range access yields a junk default point). -/
def nth (points : List Point) (k : ℕ) : Point := points.getD k default

/-- A camera record with numeric field values, as `check_dist_to_cam`
consumes them when the arithmetic succeeds: position, optional radius
(`float(cam.get('radius', 10))`), the `camera type` string, the parsed
`angle of view` (`int(cam.get('angle of view', '360'))`) and a numeric
`direction`.  (`load_cameras` actually leaves `direction` as a raw CSV
string; that raw pathway is modelled separately below for claim C9.) -/
structure Camera where
  latitude : ℚ
  longitude : ℚ
  radius : Option ℚ
  camera_type : String
  angle : ℤ
  direction : ℚ
deriving DecidableEq, Repr

/-- The string constant `'round'`. -/
def kRound : String := "round"

/-- The string constant `'directed'`. -/
def kDirected : String := "directed"

/-- Abstracted geometry kernel (main.py lines 23-67): `quick_distance`,
`get_bearing` and `get_coordinates` take `(lat0, lon0, lat1, lon1)` resp.
`(lat, lng, bearing, distance)` exactly as in the source;
`haversine_distance` is defined in the source (lines 23-31) and abstracted
here as well.  All are numpy-trigonometric and hence kept abstract. -/
structure Geo where
  quick_distance : ℚ → ℚ → ℚ → ℚ → ℚ
  get_bearing : ℚ → ℚ → ℚ → ℚ → ℚ
  get_coordinates : ℚ → ℚ → ℚ → ℚ → ℚ × ℚ
  haversine_distance : ℚ → ℚ → ℚ → ℚ → ℚ

/-- The effective FOV radius (main.py line 128):
`fov = self.radius if self.radius else float(cam.get('radius', 10))`.
Note the Python truthiness test: a configured override of `0` is falsy and
falls back to the camera's own radius (default 10). -/
def effective_fov (radius_arg : Option ℤ) (cam : Camera) : ℚ :=
  match radius_arg with
  | some r => if r ≠ 0 then (r : ℚ) else cam.radius.getD 10
  | none => cam.radius.getD 10

/-- `CCTVExposure.check_dist_to_cam(self, d, cam, lat, lon, addon=0.0)`
(main.py lines 126-143), for a camera whose `direction` field is numeric.
The bearing from the camera to the point is computed inside the directed
branch, as in line 138. -/
def check_dist_to_cam (geo : Geo) (radius_arg : Option ℤ) (d : ℚ) (cam : Camera)
    (lat lon : ℚ) (addon : ℚ) : Bool :=
  let fov := effective_fov radius_arg cam
  if d ≤ fov + addon then
    if cam.camera_type = kRound then true
    else if cam.camera_type = kDirected then
      if cam.angle < 360 then
        let lo := fmod360 (cam.direction - (cam.angle : ℚ) / 2 + 360)
        let hi := fmod360 (cam.direction + (cam.angle : ℚ) / 2 + 360)
        let bearing := geo.get_bearing cam.latitude cam.longitude lat lon
        decide (lo ≤ bearing ∧ bearing ≤ hi)
      else true
    else false
  else false

/-- Modelled from the spec (section 4.2, step 4): membership of a bearing in
the inclusive angular range `[direction - angle/2, direction + angle/2]`
taken mod 360, with wrap-aware containment when the range spans 0/360. -/
def in_angular_range (direction angle b : ℚ) : Prop :=
  let lo := fmod360 (direction - angle / 2)
  let hi := fmod360 (direction + angle / 2)
  if lo ≤ hi then lo ≤ b ∧ b ≤ hi else lo ≤ b ∨ b ≤ hi

instance (direction angle b : ℚ) : Decidable (in_angular_range direction angle b) := by
  unfold in_angular_range
  exact inferInstance

/-- Modelled from the spec (section 4.2, step 1, and section 3,
"optionally a single global radius override replaces every camera's
individual radius", as read by claim C3: the override applies whenever it is
configured, including a configured value of 0). -/
def spec_effective_radius (radius_arg : Option ℤ) (cam : Camera) : ℚ :=
  match radius_arg with
  | some r => (r : ℚ)
  | none => cam.radius.getD 10

/-- A Python `for` loop over a list that can raise: the first raised error
aborts the loop and propagates. -/
def loopFold {α β : Type} (f : β → α → Except PyErr β) : β → List α → Except PyErr β
  | b, [] => .ok b
  | b, a :: l =>
    match f b a with
    | .error e => .error e
    | .ok b2 => loopFold f b2 l

/-- Truthiness of `point.speed` (main.py line 105, `if point.speed:`):
`None` and `0.0` are falsy. -/
def speedTruthy : Option ℚ → Bool
  | none => false
  | some q => decide (q ≠ 0)

/-- The loop body of `point_in_camera_fov` (main.py lines 115-124): iterate
over `self.cams.items()` in insertion order, record the raw distance to every
camera, and collect the cameras whose FOV test passes (with the default
margin `addon=0.0`). -/
def point_in_camera_fov_aux (geo : Geo) (radius_arg : Option ℤ) (lat lon : ℚ) :
    List (ℕ × Camera) → List (ℕ × Camera) × List ℚ → List (ℕ × Camera) × List ℚ
  | [], acc => acc
  | c :: rest, acc =>
    let dist := geo.quick_distance lat lon c.2.latitude c.2.longitude
    let results := if check_dist_to_cam geo radius_arg dist c.2 lat lon 0
      then acc.1 ++ [c] else acc.1
    point_in_camera_fov_aux geo radius_arg lat lon rest (results, acc.2 ++ [dist])

/-- `CCTVExposure.point_in_camera_fov(self, lat, lon)` (main.py lines 115-124). -/
def point_in_camera_fov (geo : Geo) (radius_arg : Option ℤ) (cams : List (ℕ × Camera))
    (lat lon : ℚ) : List (ℕ × Camera) × List ℚ :=
  point_in_camera_fov_aux geo radius_arg lat lon cams ([], [])

/-- The mutable state that `CCTVExposure.track_route` accumulates
(main.py lines 78-113): `time_enabled`, `speed_enabled`, `distances`,
`cameras_per_point` (a dict in index-insertion order), `unique_cameras`
(a set, modelled as a duplicate-free list) and `cam_amount`. -/
structure RouteData where
  time_enabled : Bool
  speed_enabled : Bool
  distances : List ℚ
  cameras_per_point : List (ℕ × List (ℕ × Camera))
  unique_cameras : List ℕ
  cam_amount : ℕ
deriving DecidableEq, Repr

/-- `self.unique_cameras.update(predictions)`: add the prediction keys that
are not yet present (Python set semantics; only the size of the set is read
later, so the representation order is immaterial). -/
def setUpdate (s : List ℕ) (ks : List ℕ) : List ℕ :=
  ks.foldl (fun acc k => if k ∈ acc then acc else acc ++ [k]) s

/-- One iteration of the `track_route` loop (main.py lines 101-111). -/
def track_route_step (geo : Geo) (radius_arg : Option ℤ) (cams : List (ℕ × Camera))
    (index : ℕ) (point : Point) (st : RouteData) : RouteData :=
  let te := if point.time = none then false else st.time_enabled
  let pr := point_in_camera_fov geo radius_arg cams point.latitude point.longitude
  let se := if speedTruthy point.speed then true else st.speed_enabled
  { time_enabled := te
    speed_enabled := se
    distances := st.distances ++ pr.2
    cameras_per_point :=
      if pr.1 ≠ [] then st.cameras_per_point ++ [(index, pr.1)] else st.cameras_per_point
    unique_cameras :=
      if pr.1 ≠ [] then setUpdate st.unique_cameras (pr.1.map Prod.fst) else st.unique_cameras
    cam_amount := st.cam_amount }

/-- The `for index, point in enumerate(self.points)` loop of `track_route`. -/
def track_route_aux (geo : Geo) (radius_arg : Option ℤ) (cams : List (ℕ × Camera)) :
    ℕ → List Point → RouteData → RouteData
  | _, [], st => st
  | index, p :: rest, st =>
    track_route_aux geo radius_arg cams (index + 1) rest
      (track_route_step geo radius_arg cams index p st)

/-- `CCTVExposure.track_route(self)` (main.py lines 99-113), including the
final `self.cam_amount = len(self.unique_cameras)`. -/
def track_route (geo : Geo) (radius_arg : Option ℤ) (cams : List (ℕ × Camera))
    (points : List Point) : RouteData :=
  let st := track_route_aux geo radius_arg cams 0 points ⟨true, false, [], [], [], 0⟩
  { st with cam_amount := st.unique_cameras.length }

/-- `CCTVExposure.get_total_distance(self)` (main.py lines 90-97): iterate
`i` over `range(len(points) - 1)` and add
`quick_distance(points[-1-i], points[-2-i])`. -/
def get_total_distance (geo : Geo) (points : List Point) : ℚ :=
  (List.range (points.length - 1)).foldl
    (fun acc i =>
      acc + geo.quick_distance
        (nth points (points.length - 1 - i)).latitude
        (nth points (points.length - 1 - i)).longitude
        (nth points (points.length - 2 - i)).latitude
        (nth points (points.length - 2 - i)).longitude) 0

/-- Modelled from the spec, for claim C6: the sum over every pair of
consecutive track points of `quickDistance` between them (taken in the
later-point-to-earlier-point argument order the loop uses). -/
def quick_total (geo : Geo) (points : List Point) : ℚ :=
  ((points.zip points.tail).map
    (fun pq => geo.quick_distance pq.2.latitude pq.2.longitude pq.1.latitude pq.1.longitude)).sum

/-- Modelled from the spec, for claim C6: the sum over every pair of
consecutive track points of `haversineDistance` between them. -/
def haversine_total (geo : Geo) (points : List Point) : ℚ :=
  ((points.zip points.tail).map
    (fun pq => geo.haversine_distance pq.2.latitude pq.2.longitude pq.1.latitude pq.1.longitude)).sum

/-- `self.total_time = self.points[-1].time - self.points[0].time if
self.time_enabled else 0` (main.py line 88), merged with the
`.total_seconds()` conversion applied at every use site in `main`. -/
def total_time (points : List Point) (te : Bool) : ℚ :=
  if te then ((points.getLastD default).time.getD 0) - ((points.headD default).time.getD 0)
  else 0

/-- `CCTVExposure.avg_speed_per_point(self, dist, point1, point2)`
(main.py lines 145-147): `dist / abs((points[point2].time -
points[point1].time).total_seconds())`.  Subtracting `None` timestamps
raises `TypeError`; equal timestamps make the division raise
`ZeroDivisionError`. -/
def avg_speed_per_point (points : List Point) (dist : ℚ) (p1 p2 : ℕ) : Except PyErr ℚ :=
  match (nth points p2).time, (nth points p1).time with
  | some a, some b => pyDiv dist |a - b|
  | _, _ => .error .typeError

/-- `CCTVExposure.test_points(self, ind, points, cam, course)` (main.py
lines 149-165): repeatedly project a `resolution`-meter hop along `course`
and count consecutive hops whose FOV test (with `addon=self.accept_range`)
succeeds, stopping at the first failure.  The starting coordinates
(`self.points[ind]`) are supplied by the caller. -/
def test_points (geo : Geo) (radius_arg : Option ℤ) (cam : Camera) (course : ℚ) :
    ℚ → ℚ → ℕ → ℕ
  | _, _, 0 => 0
  | lat, lon, k + 1 =>
    let nl := geo.get_coordinates lat lon course resolution
    let cam_distance := geo.quick_distance nl.1 nl.2 cam.latitude cam.longitude
    if check_dist_to_cam geo radius_arg cam_distance cam nl.1 nl.2 accept_range then
      1 + test_points geo radius_arg cam course nl.1 nl.2 k
    else 0

/-- One entry of `self.cam_expo`: `{'points': [], 'dist': 0.0, 'time': 0.0}`
(main.py line 192). -/
structure ExpoEntry where
  points : List ℕ
  dist : ℚ
  time : ℚ
deriving DecidableEq, Repr

/-- `self.cam_expo`: a dict from camera id to its accumulator, modelled as an
association list in insertion order. -/
abbrev CamExpo := List (ℕ × ExpoEntry)

/-- Dict lookup in an association list. -/
def alistFind {α : Type} (l : List (ℕ × α)) (k : ℕ) : Option α :=
  (l.find? (fun p => decide (p.1 = k))).map (·.2)

/-- Dict value update for an existing key. -/
def alistSet {α : Type} (l : List (ℕ × α)) (k : ℕ) (v : α) : List (ℕ × α) :=
  l.map (fun p => if p.1 = k then (k, v) else p)

/-- Python `speed != 0` where `speed` is a number or `None`
(main.py line 209): `None != 0` is `True`. -/
def speedNe0 (s : Option ℚ) : Prop := s ≠ some 0

instance (s : Option ℚ) : Decidable (speedNe0 s) := by
  unfold speedNe0
  exact inferInstance

/-- `(pseudo_points / (1 / resolution)) / speed` (main.py line 210): the
numerator is a float division, the outer division raises `TypeError` when
`speed` is `None` and `ZeroDivisionError` when it is numerically zero. -/
def pyDivBySpeed (x : ℚ) (s : Option ℚ) : Except PyErr ℚ :=
  match s with
  | some q => pyDiv x q
  | none => .error .typeError

/-- `if cam not in self.cam_expo.keys(): self.cam_expo.update({cam: {'points':
[], 'dist': 0.0, 'time': 0.0}})` (main.py lines 191-192). -/
def expoInsert (l : CamExpo) (k : ℕ) : CamExpo :=
  if alistFind l k = none then l ++ [(k, ⟨[], 0, 0⟩)] else l

/-- `self.cam_expo[cam]`: after `expoInsert` the key is always present; the
default entry is junk for an absent key. -/
def expoGet (l : CamExpo) (k : ℕ) : ExpoEntry := (alistFind l k).getD ⟨[], 0, 0⟩

/-- `if point_ind not in self.cam_expo[cam]['points']:
self.cam_expo[cam]['points'].append(point_ind)` (main.py lines 196-197). -/
def entryMark (e : ExpoEntry) (i : ℕ) : ExpoEntry :=
  if i ∈ e.points then e else ⟨e.points ++ [i], e.dist, e.time⟩

/-- `self.cam_expo[cam]['time'] += round(cam_time, 2)` (main.py line 215). -/
def expoAddTime (l : CamExpo) (k : ℕ) (t : ℚ) : CamExpo :=
  alistSet l k ⟨(expoGet l k).points, (expoGet l k).dist, (expoGet l k).time + pyRound2 t⟩

/-- `self.cam_expo[cam]['dist'] += cam_dist` (main.py line 220). -/
def expoAddDist (l : CamExpo) (k : ℕ) (d : ℚ) : CamExpo :=
  alistSet l k ⟨(expoGet l k).points, (expoGet l k).dist + d, (expoGet l k).time⟩

/-- The speed determination (main.py lines 204-208): `speed = 0`, overridden
by the point's own (possibly `None`) speed when `speed_enabled`, else by the
segment average speed when `time_enabled`. -/
def speed_of (points : List Point) (te se : Bool) (distance : ℚ)
    (point_ind other_point : ℕ) : Except PyErr (Option ℚ) :=
  if se = true then .ok (nth points point_ind).speed
  else if te = true then
    match avg_speed_per_point points distance point_ind other_point with
    | .ok q => .ok (some q)
    | .error e => .error e
  else .ok (some 0)

/-- The exposure-time determination (main.py lines 209-212): divide by the
speed when `speed != 0` (a `None` speed raises `TypeError` there), otherwise
fall back to the absolute timestamp difference (`None` timestamps raise
`AttributeError` on `.timestamp()`). -/
def cam_time_of (points : List Point) (speed : Option ℚ) (pseudo : ℕ)
    (point_ind other_point : ℕ) : Except PyErr ℚ :=
  if speedNe0 speed then pyDivBySpeed ((pseudo : ℚ) / (1 / resolution)) speed
  else
    match (nth points other_point).time, (nth points point_ind).time with
    | some a, some b => .ok |a - b|
    | _, _ => .error .attributeError

/-- The body of the `for cam in cameras.keys()` loop of
`calculate_direction` (main.py lines 190-220), executed for one camera
observing the point at index `point_ind`.  The accumulator triple is
`(highest_dist, highest_time, cam_expo)`. -/
def cam_step (geo : Geo) (radius_arg : Option ℤ) (points : List Point)
    (cpp : List (ℕ × List (ℕ × Camera))) (backward te se : Bool)
    (point_ind other_point : ℕ) (course distance : ℚ) (npts : ℕ)
    (acc : ℚ × ℚ × CamExpo) (c : ℕ × Camera) : Except PyErr (ℚ × ℚ × CamExpo) :=
  let expo1 := expoInsert acc.2.2 c.1
  if backward = false ∧ (point_ind + 1) ∈ (expoGet expo1 c.1).points then
    .ok (acc.1, acc.2.1, expo1)
  else
    let expo2 := alistSet expo1 c.1 (entryMark (expoGet expo1 c.1) point_ind)
    let preds := (alistFind cpp (point_ind - 1)).getD []
    let pseudo := if backward = true ∧ preds ≠ [] ∧ c.1 ∈ preds.map Prod.fst then npts
      else test_points geo radius_arg c.2 course
        (nth points point_ind).latitude (nth points point_ind).longitude npts
    match speed_of points te se distance point_ind other_point with
    | .error e => .error e
    | .ok speed =>
      match cam_time_of points speed pseudo point_ind other_point with
      | .error e => .error e
      | .ok cam_time =>
        let cam_dist := (pseudo : ℚ) / (1 / resolution)
        .ok (if cam_dist > acc.1 then cam_dist else acc.1,
          if cam_time > acc.2.1 then cam_time else acc.2.1,
          expoAddDist (expoAddTime expo2 c.1 cam_time) c.1 cam_dist)

/-- One iteration of the `for point_ind, cameras in
self.cameras_per_point.items()` loop of `calculate_direction`
(main.py lines 170-223).  The accumulator is
`(total_meters, total_seconds, cam_expo)`. -/
def point_step (geo : Geo) (radius_arg : Option ℤ) (points : List Point)
    (cpp : List (ℕ × List (ℕ × Camera))) (backward te se : Bool)
    (acc : ℚ × ℚ × CamExpo) (e : ℕ × List (ℕ × Camera)) : Except PyErr (ℚ × ℚ × CamExpo) :=
  let point_ind := e.1
  let other? : Option ℕ :=
    if backward = true then (if point_ind ≠ 0 then some (point_ind - 1) else none)
    else (if point_ind ≠ points.length - 1 then some (point_ind + 1) else none)
  match other? with
  | none => .ok acc
  | some other_point =>
    let course := geo.get_bearing
      (nth points point_ind).latitude (nth points point_ind).longitude
      (nth points other_point).latitude (nth points other_point).longitude
    let distance := geo.quick_distance
      (nth points point_ind).latitude (nth points point_ind).longitude
      (nth points other_point).latitude (nth points other_point).longitude
    let npts := if distance > resolution then (pyRound (distance / resolution)).toNat else 1
    match loopFold (cam_step geo radius_arg points cpp backward te se
        point_ind other_point course distance npts) (0, 0, acc.2.2) e.2 with
    | .error err => .error err
    | .ok out => .ok (acc.1 + out.1, acc.2.1 + out.2.1, out.2.2)

/-- `CCTVExposure.calculate_direction(self, backward)` (main.py lines
167-225): fold the per-point step over `cameras_per_point`, threading the
shared `cam_expo` accumulator, and return
`(total_meters, total_seconds, cam_expo)`. -/
def calculate_direction (geo : Geo) (radius_arg : Option ℤ) (points : List Point)
    (cpp : List (ℕ × List (ℕ × Camera))) (te se backward : Bool) (expo0 : CamExpo) :
    Except PyErr (ℚ × ℚ × CamExpo) :=
  loopFold (point_step geo radius_arg points cpp backward te se) (0, 0, expo0) cpp

/-- `CCTVExposure.time_and_distance_in_camera_fov(self)` (main.py lines
227-231): the backward pass runs first, the forward pass continues on the
same `cam_expo`, and the two pass totals are summed. -/
def time_and_distance_in_camera_fov (geo : Geo) (radius_arg : Option ℤ)
    (points : List Point) (rd : RouteData) : Except PyErr (ℚ × ℚ × CamExpo) :=
  match calculate_direction geo radius_arg points rd.cameras_per_point
      rd.time_enabled rd.speed_enabled true [] with
  | .error e => .error e
  | .ok b =>
    match calculate_direction geo radius_arg points rd.cameras_per_point
        rd.time_enabled rd.speed_enabled false b.2.2 with
    | .error e => .error e
    | .ok f => .ok (b.1 + f.1, b.2.1 + f.2.1, f.2.2)

/-- Insert into a sorted list of rationals. -/
def insertSorted (x : ℚ) : List ℚ → List ℚ
  | [] => [x]
  | y :: rest => if x ≤ y then x :: y :: rest else y :: insertSorted x rest

/-- Sort a list of rationals (used to model `np.median`). -/
def sortQ (l : List ℚ) : List ℚ := l.foldr insertSorted []

/-- `np.average` on a nonempty list: the arithmetic mean. -/
def np_average (l : List ℚ) : ℚ := l.sum / l.length

/-- `np.median`: middle element of the sorted data for odd length, mean of
the two middle elements for even length. -/
def np_median (l : List ℚ) : ℚ :=
  let s := sortQ l
  let n := l.length
  if n % 2 = 1 then s.getD (n / 2) 0
  else (s.getD (n / 2 - 1) 0 + s.getD (n / 2) 0) / 2

/-- `CCTVExposure.calc_distance_stats(self)` (main.py lines 233-237), with
the emptiness guards `if self.distances else 0`. -/
def calc_distance_stats (distances : List ℚ) : ℚ × ℚ :=
  (if distances ≠ [] then np_average distances else 0,
   if distances ≠ [] then np_median distances else 0)

/-- The time-dependent part of the report (main.py lines 286-292), present
only when `exposure.time_enabled`. -/
structure TimeReport where
  avg_speed : ℚ
  time_percentage : ℚ
  exposure_time : ℚ
deriving DecidableEq, Repr

/-- The per-segment result record assembled by `main` (main.py lines
272-294), restricted to the numeric fields (the file/track/segment labels
and the per-camera breakdown rendering are I/O adapters outside the core). -/
structure Report where
  total_distance : ℚ
  number_of_unique_cams : ℕ
  exposure_distance : ℚ
  dist_percentage : ℚ
  camera_distance_avg : ℚ
  camera_distance_median : ℚ
  time_part : Option TimeReport
  fov_radius : Option ℤ
deriving DecidableEq, Repr

/-- The `if exposure.time_enabled:` block of `main` (main.py lines 286-292):
`time_percentage = time / total_time * 100` is computed first, then
`avg_speed = round(total_distance / total_time * 3.6, 2)`.  Both divisions
are unguarded. -/
def time_block (td tt timeval : ℚ) (te : Bool) : Except PyErr (Option TimeReport) :=
  if te then
    match pyDiv timeval tt with
    | .error e => .error e
    | .ok tp0 =>
      match pyDiv td tt with
      | .error e => .error e
      | .ok asp => .ok (some ⟨pyRound2 (asp * (36 / 10)), pyRound2 (tp0 * 100), timeval⟩)
  else .ok none

/-- The numeric computation of `main` for one segment (main.py lines
257-300): build the exposure state, compute the pass totals and distance
statistics, then the percentage fields.  The division
`dist_percentage = dist / exposure.total_distance * 100` (line 270) is
unguarded, exactly as in the source. -/
def main_stats (geo : Geo) (radius_arg : Option ℤ) (cams : List (ℕ × Camera))
    (points : List Point) : Except PyErr Report :=
  let rd := track_route geo radius_arg cams points
  let td := get_total_distance geo points
  let tt := total_time points rd.time_enabled
  match time_and_distance_in_camera_fov geo radius_arg points rd with
  | .error e => .error e
  | .ok dt =>
    let stats := calc_distance_stats rd.distances
    match pyDiv dt.1 td with
    | .error e => .error e
    | .ok dp0 =>
      match time_block td tt dt.2.1 rd.time_enabled with
      | .error e => .error e
      | .ok tb =>
        let fovr : Option ℤ := match radius_arg with
          | some r => if r ≠ 0 then some r else none
          | none => none
        .ok ⟨td, rd.cam_amount, dt.1, pyRound2 (dp0 * 100), stats.1, stats.2, tb, fovr⟩

/-- Helper predicate for claim C5: nonnegativity of the reported
time-exposure percentage, when one is reported. -/
def timePercNonneg : Option TimeReport → Prop
  | none => True
  | some tp => 0 ≤ tp.time_percentage

/-! ### The raw CSV camera pathway (for claim C9)

`load_cameras` (main.py lines 239-254) keeps every CSV field as the raw
string it read; nothing is parsed at load time.  `check_dist_to_cam` then
converts `radius` and `angle of view` at each call, but uses `direction`
directly in float arithmetic. -/

/-- CSV column name `radius`. -/
def kRadius : String := "radius"

/-- CSV column name `camera type`. -/
def kCameraType : String := "camera type"

/-- CSV column name `angle of view`. -/
def kAngleOfView : String := "angle of view"

/-- CSV column name `direction`. -/
def kDirection : String := "direction"

/-- CSV column name `latitude`. -/
def kLatitude : String := "latitude"

/-- CSV column name `longitude`. -/
def kLongitude : String := "longitude"

/-- Dict lookup by string key in an association list. -/
def alistGet (l : List (String × String)) (k : String) : Option String :=
  (l.find? (fun p => decide (p.1 = k))).map (·.2)

/-- Python `dict.update({k: v})`: overwrite an existing key or append. -/
def dictUpdate (l : List (String × String)) (k v : String) : List (String × String) :=
  if (l.find? (fun p => decide (p.1 = k))).isSome then
    l.map (fun p => if p.1 = k then (k, v) else p)
  else l ++ [(k, v)]

/-- Numeral value of a digit string. -/
def digitsToNat (cs : List Char) : ℕ :=
  cs.foldl (fun a c => a * 10 + (c.toNat - Char.toNat '0')) 0

/-- Python `int(s)` restricted to optionally signed decimal integers, the
only shape the camera CSV uses; anything else raises `ValueError`. -/
def pyInt (s : String) : Except PyErr ℤ :=
  let p := match s.toList with
    | '-' :: rest => ((-1 : ℤ), rest)
    | '+' :: rest => (1, rest)
    | cs => (1, cs)
  if p.2 ≠ [] ∧ p.2.all Char.isDigit then .ok (p.1 * digitsToNat p.2)
  else .error .valueError

/-- Python `float(s)` restricted to optionally signed decimal literals
(`digits`, `digits.digits`, `.digits`, `digits.`), the only shape the camera
CSV uses; anything else raises `ValueError`. -/
def pyFloat (s : String) : Except PyErr ℚ :=
  let p := match s.toList with
    | '-' :: rest => ((-1 : ℚ), rest)
    | '+' :: rest => (1, rest)
    | cs => (1, cs)
  let ip := p.2.takeWhile (fun c => c ≠ '.')
  let rest := p.2.dropWhile (fun c => c ≠ '.')
  match rest with
  | [] =>
    if ip ≠ [] ∧ ip.all Char.isDigit then .ok (p.1 * digitsToNat ip)
    else .error .valueError
  | _ :: fp =>
    if (ip ≠ [] ∨ fp ≠ []) ∧ ip.all Char.isDigit ∧ fp.all Char.isDigit then
      .ok (p.1 * (digitsToNat ip + (digitsToNat fp : ℚ) / 10 ^ fp.length))
    else .error .valueError

/-- The inner loop of `load_cameras` (main.py lines 248-250): pair the
`i`-th row value with `columns[i]`, skipping empty values (`if column:`);
a row longer than the header raises `IndexError`. -/
def load_row (columns : List String) : ℕ → List String → List (String × String) →
    Except PyErr (List (String × String))
  | _, [], acc => .ok acc
  | i, c :: rest, acc =>
    if c ≠ "" then
      match columns.get? i with
      | some cname => load_row columns (i + 1) rest (dictUpdate acc cname c)
      | none => .error .indexError
    else load_row columns (i + 1) rest acc

/-- The outer loop of `load_cameras` (main.py lines 246-250). -/
def load_cameras_aux (columns : List String) :
    ℕ → List (List String) → List (ℕ × List (String × String)) →
    Except PyErr (List (ℕ × List (String × String)))
  | _, [], acc => .ok acc
  | index, row :: rest, acc =>
    match load_row columns 0 row [] with
    | .error e => .error e
    | .ok fields => load_cameras_aux columns (index + 1) rest (acc ++ [(index, fields)])

/-- `CCTVExposure.load_cameras(self)` (main.py lines 239-254), applied to an
already-split CSV (header row and data rows): every stored value is the raw
CSV string. -/
def load_cameras (columns : List String) (rows : List (List String)) :
    Except PyErr (List (ℕ × List (String × String))) :=
  load_cameras_aux columns 0 rows []

/-- The tuple construction `fov_range = ((direction - angle / 2 + 360.0) %
360.0, (direction + angle / 2 + 360.0) % 360.0)` (main.py line 137) as it
executes on a camera dict produced by `load_cameras`: `direction` is the raw
CSV string, or `None` when the column is absent, and Python raises
`TypeError` for both `str - float` and `NoneType - float`. -/
def fov_range_raw (direct : Option String) (angle : ℤ) : Except PyErr (ℚ × ℚ) :=
  match direct, angle with
  | _, _ => .error .typeError

/-- `float(cam.get('radius', 10))` (main.py line 128) on a raw camera dict. -/
def radius_of_raw (cam : List (String × String)) : Except PyErr ℚ :=
  match alistGet cam kRadius with
  | some s => pyFloat s
  | none => .ok 10

/-- `fov = self.radius if self.radius else float(cam.get('radius', 10))`
(main.py line 128) on a raw camera dict. -/
def effective_fov_raw (radius_arg : Option ℤ) (cam : List (String × String)) :
    Except PyErr ℚ :=
  match radius_arg with
  | some r => if r ≠ 0 then .ok (r : ℚ) else radius_of_raw cam
  | none => radius_of_raw cam

/-- `CCTVExposure.check_dist_to_cam` (main.py lines 126-143) as it executes
on a camera dict produced by `load_cameras` (all values raw CSV strings). -/
def check_dist_to_cam_raw (geo : Geo) (radius_arg : Option ℤ) (d : ℚ)
    (cam : List (String × String)) (lat lon : ℚ) (addon : ℚ) : Except PyErr Bool :=
  match effective_fov_raw radius_arg cam with
  | .error e => .error e
  | .ok fov =>
    if d ≤ fov + addon then
      let camtype := (alistGet cam kCameraType).getD kRound
      if camtype = kRound then .ok true
      else if camtype = kDirected then
        match pyInt ((alistGet cam kAngleOfView).getD "360") with
        | .error e => .error e
        | .ok angle =>
          if angle < 360 then
            match fov_range_raw (alistGet cam kDirection) angle with
            | .error e => .error e
            | .ok fr =>
              match pyFloat ((alistGet cam kLatitude).getD ""),
                  pyFloat ((alistGet cam kLongitude).getD "") with
              | .ok clat, .ok clon =>
                .ok (decide (fr.1 ≤ geo.get_bearing clat clon lat lon ∧
                  geo.get_bearing clat clon lat lon ≤ fr.2))
              | _, _ => .error .typeError
          else .ok true
      else .ok false
    else .ok false

/-! ### Concrete geometry-kernel instances for witnesses and counterexamples

These instances only take values the transcendental kernel can realise:
`lineGeo` models points on a single parallel with longitudes measured in
meters (east = bearing 90, west = bearing 270), `constGeo b d` models a
configuration in which the probed point sits at bearing `b` and distance
`d` from every camera, and `pairGeo` a pair of points whose equirectangular
and great-circle distances differ. -/

/-- Points on one parallel; longitude differences are in meters. -/
def lineGeo : Geo where
  quick_distance := fun _ o0 _ o1 => |o1 - o0|
  get_bearing := fun _ o0 _ o1 => if o0 < o1 then 90 else 270
  get_coordinates := fun lat lon course dist =>
    if course = 90 then (lat, lon + dist)
    else if course = 270 then (lat, lon - dist) else (lat, lon)
  haversine_distance := fun _ o0 _ o1 => |o1 - o0|

/-- A kernel reporting constant bearing `b` and constant distance `d`. -/
def constGeo (b d : ℚ) : Geo where
  quick_distance := fun _ _ _ _ => d
  get_bearing := fun _ _ _ _ => b
  get_coordinates := fun lat lon _ _ => (lat, lon)
  haversine_distance := fun _ _ _ _ => d

/-- A kernel on which the equirectangular approximation (constant 1) and the
great-circle distance (constant 2) disagree. -/
def pairGeo : Geo where
  quick_distance := fun _ _ _ _ => 1
  get_bearing := fun _ _ _ _ => 0
  get_coordinates := fun lat lon _ _ => (lat, lon)
  haversine_distance := fun _ _ _ _ => 2

/-- Invariant for claim C8: every per-camera visited-point list in the
`cam_expo` accumulator is duplicate-free. -/
def expoNodup (l : CamExpo) : Prop := ∀ x ∈ l, x.2.points.Nodup

/-! ## Theorems -/

/-- A raised error aborts a loop; an `ok` run of the loop preserves any
invariant each iteration preserves. -/
theorem loopFold_inv {α β : Type} (f : β → α → Except PyErr β) (P : β → Prop)
    (hf : ∀ b a b2, P b → f b a = .ok b2 → P b2) :
    ∀ l b b2, P b → loopFold f b l = .ok b2 → P b2 := by
  intro l
  induction l with
  | nil =>
    intro b b2 hb hok
    simp only [loopFold] at hok
    cases hok
    exact hb
  | cons a rest ih =>
    intro b b2 hb hok
    simp only [loopFold] at hok
    cases hfa : f b a with
    | error e => rw [hfa] at hok; cases hok
    | ok b3 =>
      rw [hfa] at hok
      exact ih b3 b2 (hf b a b3 hb hfa) hok

/-- The entry found for a key (or the fresh default) has a duplicate-free
visited list whenever the accumulator invariant holds. -/
theorem alistFind_nodup {l : CamExpo} {k : ℕ} (hl : expoNodup l) :
    ((alistFind l k).getD ⟨[], 0, 0⟩).points.Nodup := by
  unfold alistFind
  cases hf : l.find? (fun p => decide (p.1 = k)) with
  | none => simp
  | some p =>
    simp only [Option.map_some', Option.getD_some]
    exact hl p (List.mem_of_find?_eq_some hf)

/-- Updating a key with a duplicate-free entry preserves the invariant. -/
theorem alistSet_nodup {l : CamExpo} {k : ℕ} {v : ExpoEntry}
    (hl : expoNodup l) (hv : v.points.Nodup) : expoNodup (alistSet l k v) := by
  unfold alistSet
  intro x hx
  rw [List.mem_map] at hx
  obtain ⟨p, hp, hpx⟩ := hx
  by_cases hk : p.1 = k
  · rw [if_pos hk] at hpx
    subst hpx
    exact hv
  · rw [if_neg hk] at hpx
    subst hpx
    exact hl p hp

/-- Inserting a fresh empty entry preserves the invariant. -/
theorem expo_insert_nodup {l : CamExpo} {k : ℕ} (hl : expoNodup l) :
    expoNodup (if alistFind l k = none then l ++ [(k, ⟨[], 0, 0⟩)] else l) := by
  split
  · intro x hx
    rw [List.mem_append] at hx
    cases hx with
    | inl h => exact hl x h
    | inr h =>
      rw [List.mem_singleton] at h
      subst h
      simp
  · exact hl

/-- Adding a full turn before taking `% 360.0` changes nothing. -/
theorem fmod360_add_360 (x : ℚ) : fmod360 (x + 360) = fmod360 x := by
  unfold fmod360
  have h : (x + 360) / 360 = x / 360 + 1 := by ring
  rw [h, Int.floor_add_one]
  push_cast
  ring

/-- Claim C1, counterexample: the camera at direction 350 with a 40-degree
cone has the wrapped angular range [330, 10]; a point at bearing 350 and
distance 0 (well inside the default radius 10) lies in that range, yet
`check_dist_to_cam` rejects it, because `330 <= 350 <= 10` fails as a linear
comparison (main.py line 139). -/
theorem claim1_counterexample :
    check_dist_to_cam (constGeo 350 0) none 0 ⟨0, 0, none, kDirected, 40, 350⟩ 0 0 0 = false ∧
    in_angular_range 350 40 ((constGeo 350 0).get_bearing 0 0 0 0) ∧
    (0 : ℚ) ≤ effective_fov none ⟨0, 0, none, kDirected, 40, 350⟩ + 0 :=
  ⟨by with_unfolding_all rfl, by with_unfolding_all decide, by with_unfolding_all decide⟩

/-- Claim C1 (amended): for a directed camera with angle of view < 360 and a
point within `effectiveRadius + margin`, `isInFov` returns true iff the
mod-360 range endpoints do not wrap (`lo <= hi`) and the bearing from the
camera to the point lies in the wrap-aware range `[lo, hi]`; for ranges that
span the 0/360 wraparound (`lo > hi`) the code returns false for every
bearing. -/
theorem claim1_amended (geo : Geo) (radius_arg : Option ℤ) (d : ℚ) (cam : Camera)
    (lat lon addon : ℚ) (hty : cam.camera_type = kDirected) (hang : cam.angle < 360)
    (hd : d ≤ effective_fov radius_arg cam + addon) :
    (check_dist_to_cam geo radius_arg d cam lat lon addon = true ↔
      (fmod360 (cam.direction - (cam.angle : ℚ) / 2) ≤
          fmod360 (cam.direction + (cam.angle : ℚ) / 2) ∧
        in_angular_range cam.direction (cam.angle : ℚ)
          (geo.get_bearing cam.latitude cam.longitude lat lon))) := by
  have hne : cam.camera_type ≠ kRound := by
    rw [hty]
    intro h
    exact absurd h (by decide)
  unfold check_dist_to_cam
  rw [if_pos hd, if_neg hne, if_pos hty, if_pos hang]
  rw [fmod360_add_360 (cam.direction - (cam.angle : ℚ) / 2),
    fmod360_add_360 (cam.direction + (cam.angle : ℚ) / 2)]
  unfold in_angular_range
  set lo := fmod360 (cam.direction - (cam.angle : ℚ) / 2) with hlo
  set hi := fmod360 (cam.direction + (cam.angle : ℚ) / 2) with hhi
  set b := geo.get_bearing cam.latitude cam.longitude lat lon with hb
  by_cases hwrap : lo ≤ hi
  · rw [if_pos hwrap]
    simp only [decide_eq_true_eq]
    exact ⟨fun h => ⟨hwrap, h⟩, fun h => h.2⟩
  · rw [if_neg hwrap]
    simp only [decide_eq_true_eq]
    constructor
    · intro h
      exact absurd (le_trans h.1 h.2) hwrap
    · intro h
      exact absurd h.1 hwrap

/-- Claim C1, witness for the amended theorem: direction 90, angle 40 gives
the non-wrapping range [70, 110]; a point at bearing 100 and distance 0. -/
theorem claim1_witness :
    (check_dist_to_cam (constGeo 100 0) none 0 ⟨0, 0, none, kDirected, 40, 90⟩ 0 0 0 = true ↔
      (fmod360 ((90 : ℚ) - (((40 : ℤ) : ℚ)) / 2) ≤ fmod360 ((90 : ℚ) + (((40 : ℤ) : ℚ)) / 2) ∧
        in_angular_range 90 ((40 : ℤ) : ℚ) ((constGeo 100 0).get_bearing 0 0 0 0))) :=
  claim1_amended (constGeo 100 0) none 0 ⟨0, 0, none, kDirected, 40, 90⟩ 0 0 0
    rfl (by decide) (by with_unfolding_all decide)

/-- Claim C3, counterexample: with a configured global radius override of 0,
the code's truthiness test `self.radius if self.radius else ...`
(main.py line 128) is falsy, so the camera's own radius (default 10)
applies: a round camera at distance 5 is accepted, while the claim's
effective radius of 0 would reject it. -/
theorem claim3_counterexample :
    check_dist_to_cam (constGeo 0 0) (some 0) 5 ⟨0, 0, none, kRound, 360, 0⟩ 0 0 0 = true ∧
    ¬ ((5 : ℚ) ≤ spec_effective_radius (some 0) ⟨0, 0, none, kRound, 360, 0⟩) :=
  ⟨by with_unfolding_all rfl, by with_unfolding_all decide⟩

/-- Claim C3 (amended): for every round camera and every point,
`isInFov(point, camera, 0)` returns true iff the camera distance is at most
the effective radius, where the effective radius is the global override when
one was configured with a nonzero value, and otherwise the camera's own
radius with default 10. -/
theorem claim3_amended (geo : Geo) (radius_arg : Option ℤ) (d : ℚ) (cam : Camera)
    (lat lon : ℚ) (hty : cam.camera_type = kRound) :
    (check_dist_to_cam geo radius_arg d cam lat lon 0 = true ↔
      d ≤ effective_fov radius_arg cam) := by
  simp only [check_dist_to_cam]
  rw [add_zero]
  by_cases hd : d ≤ effective_fov radius_arg cam
  · rw [if_pos hd, if_pos hty]
    simp [hd]
  · rw [if_neg hd]
    simp [hd]

/-- Claim C3, witness for the amended theorem: a round camera with its own
radius 7 and a point at distance 3. -/
theorem claim3_witness :
    (check_dist_to_cam (constGeo 0 0) none 3 ⟨0, 0, some 7, kRound, 0, 0⟩ 0 0 0 = true ↔
      (3 : ℚ) ≤ effective_fov none ⟨0, 0, some 7, kRound, 0, 0⟩) :=
  claim3_amended (constGeo 0 0) none 3 ⟨0, 0, some 7, kRound, 0, 0⟩ 0 0 rfl

/-- Claim C4: a directed camera with angle of view exactly 360 receives the
same `isInFov` verdict as a round camera with the same position and radius,
for every kernel, distance, point, margin and radius override (main.py
lines 131-132 and 141-142 both return True once the radius gate passes). -/
theorem claim4_directed360_eq_round (geo : Geo) (radius_arg : Option ℤ) (d : ℚ)
    (clat clon : ℚ) (rad : Option ℚ) (dir dir2 : ℚ) (ang : ℤ) (lat lon addon : ℚ) :
    check_dist_to_cam geo radius_arg d ⟨clat, clon, rad, kDirected, 360, dir⟩ lat lon addon =
      check_dist_to_cam geo radius_arg d ⟨clat, clon, rad, kRound, ang, dir2⟩ lat lon addon := by
  unfold check_dist_to_cam effective_fov
  simp [kRound, kDirected]

/-- Folding addition over `List.range` is a `Finset.range` sum. -/
theorem foldl_range_add (f : ℕ → ℚ) (m : ℕ) :
    (List.range m).foldl (fun acc i => acc + f i) 0 = ∑ i in Finset.range m, f i := by
  induction m with
  | zero => simp
  | succ n ih =>
    rw [List.range_succ, List.foldl_append, ih, Finset.sum_range_succ]
    simp

/-- The `Finset.range` sum of the consecutive-pair distances equals the
zip-based `quick_total`. -/
theorem sum_consecutive (geo : Geo) (points : List Point) :
    (∑ j in Finset.range (points.length - 1),
      geo.quick_distance (nth points (j + 1)).latitude (nth points (j + 1)).longitude
        (nth points j).latitude (nth points j).longitude) = quick_total geo points := by
  induction points with
  | nil => simp [quick_total]
  | cons p rest ih =>
    cases rest with
    | nil => simp [quick_total]
    | cons q rest2 =>
      have hlen : (p :: q :: rest2 : List Point).length - 1 = rest2.length + 1 := by
        simp
      rw [hlen, Finset.sum_range_succ']
      have hlen2 : (q :: rest2 : List Point).length - 1 = rest2.length := by simp
      rw [hlen2] at ih
      simp only [nth, List.getD_cons_succ, List.getD_cons_zero] at ih ⊢
      rw [show quick_total geo (p :: q :: rest2) =
        geo.quick_distance q.latitude q.longitude p.latitude p.longitude +
          quick_total geo (q :: rest2) by simp [quick_total]]
      rw [← ih]
      ring

/-- Claim C6, counterexample: on a kernel where the equirectangular and
great-circle distances differ, the reported total is the `quick_distance`
sum, not the `haversineDistance` sum — `get_total_distance` (main.py line
95) calls `quick_distance`, and `haversine_distance` has no call site. -/
theorem claim6_counterexample :
    get_total_distance pairGeo [⟨0, 0, none, none⟩, ⟨0, 1, none, none⟩] = 1 ∧
    haversine_total pairGeo [⟨0, 0, none, none⟩, ⟨0, 1, none, none⟩] = 2 ∧
    (1 : ℚ) ≠ 2 :=
  ⟨by with_unfolding_all rfl, by with_unfolding_all rfl, by with_unfolding_all decide⟩

/-- Claim C6 (amended): the whole-route total distance equals the sum, over
every pair of consecutive track points, of `quickDistance` between them
(applied later-point-first, following the reversed loop of
`get_total_distance`); `haversineDistance` is defined but unused. -/
theorem claim6_amended (geo : Geo) (points : List Point) :
    get_total_distance geo points = quick_total geo points := by
  unfold get_total_distance
  rw [foldl_range_add]
  rw [← sum_consecutive geo points]
  rw [← Finset.sum_range_reflect (fun j => geo.quick_distance
    (nth points (j + 1)).latitude (nth points (j + 1)).longitude
    (nth points j).latitude (nth points j).longitude) (points.length - 1)]
  apply Finset.sum_congr rfl
  intro j hj
  rw [Finset.mem_range] at hj
  have e1 : points.length - 1 - 1 - j + 1 = points.length - 1 - j := by omega
  have e2 : points.length - 1 - 1 - j = points.length - 2 - j := by omega
  rw [e1, e2]

/-- Claim C2: a degenerate track (here a single point, so total distance 0)
does not surface an "insufficient track data" condition: the unguarded
division `dist / exposure.total_distance` at main.py line 270 raises
`ZeroDivisionError`. -/
theorem claim2_code_bug :
    main_stats (constGeo 0 0) none [] [⟨0, 0, none, none⟩] = .error .zeroDivisionError := by
  with_unfolding_all rfl

/-- A point strictly farther than the effective radius fails the FOV test
(with the membership-pass margin 0). -/
theorem check_false_of_far (geo : Geo) (radius_arg : Option ℤ) (d : ℚ) (cam : Camera)
    (lat lon : ℚ) (h : ¬ d ≤ effective_fov radius_arg cam) :
    check_dist_to_cam geo radius_arg d cam lat lon 0 = false := by
  simp only [check_dist_to_cam]
  rw [add_zero, if_neg h]

/-- If every camera is out of range, the membership loop adds nothing to the
prediction accumulator. -/
theorem pifa_results_of_far (geo : Geo) (radius_arg : Option ℤ) (lat lon : ℚ)
    (cams : List (ℕ × Camera))
    (h : ∀ c ∈ cams,
      ¬ (geo.quick_distance lat lon c.2.latitude c.2.longitude ≤ effective_fov radius_arg c.2)) :
    ∀ acc, (point_in_camera_fov_aux geo radius_arg lat lon cams acc).1 = acc.1 := by
  induction cams with
  | nil => intro acc; rfl
  | cons c rest ih =>
    intro acc
    simp only [point_in_camera_fov_aux]
    rw [check_false_of_far geo radius_arg _ c.2 lat lon (h c (List.mem_cons_self c rest))]
    simp only [Bool.false_eq_true, if_false]
    exact ih (fun x hx => h x (List.mem_cons_of_mem c hx)) _

/-- If every camera is out of range, a point registers no memberships. -/
theorem point_in_camera_fov_empty (geo : Geo) (radius_arg : Option ℤ)
    (cams : List (ℕ × Camera)) (lat lon : ℚ)
    (h : ∀ c ∈ cams,
      ¬ (geo.quick_distance lat lon c.2.latitude c.2.longitude ≤ effective_fov radius_arg c.2)) :
    (point_in_camera_fov geo radius_arg cams lat lon).1 = [] :=
  pifa_results_of_far geo radius_arg lat lon cams h ([], [])

/-- If every point is out of range of every camera, the track loop leaves
`cameras_per_point` and `unique_cameras` unchanged. -/
theorem track_route_aux_far (geo : Geo) (radius_arg : Option ℤ) (cams : List (ℕ × Camera))
    (points : List Point)
    (h : ∀ p ∈ points, ∀ c ∈ cams,
      ¬ (geo.quick_distance p.latitude p.longitude c.2.latitude c.2.longitude ≤
        effective_fov radius_arg c.2)) :
    ∀ idx st, (track_route_aux geo radius_arg cams idx points st).cameras_per_point =
        st.cameras_per_point ∧
      (track_route_aux geo radius_arg cams idx points st).unique_cameras = st.unique_cameras := by
  induction points with
  | nil => intro idx st; exact ⟨rfl, rfl⟩
  | cons p rest ih =>
    intro idx st
    have hp := point_in_camera_fov_empty geo radius_arg cams p.latitude p.longitude
      (h p (List.mem_cons_self p rest))
    have hstep : (track_route_step geo radius_arg cams idx p st).cameras_per_point =
        st.cameras_per_point ∧
        (track_route_step geo radius_arg cams idx p st).unique_cameras = st.unique_cameras := by
      simp only [track_route_step, hp]
      exact ⟨rfl, rfl⟩
    have ih2 := ih (fun x hx => h x (List.mem_cons_of_mem p hx)) (idx + 1)
      (track_route_step geo radius_arg cams idx p st)
    simp only [track_route_aux]
    exact ⟨ih2.1.trans hstep.1, ih2.2.trans hstep.2⟩

/-- Claim C7: for every track in which every point lies outside every
camera's effective radius, no point registers any FOV membership, so the
computation yields total exposure distance 0, total exposure time 0, and
unique-camera count 0. -/
theorem claim7_outside_all (geo : Geo) (radius_arg : Option ℤ) (cams : List (ℕ × Camera))
    (points : List Point)
    (h : ∀ p ∈ points, ∀ c ∈ cams,
      ¬ (geo.quick_distance p.latitude p.longitude c.2.latitude c.2.longitude ≤
        effective_fov radius_arg c.2)) :
    (track_route geo radius_arg cams points).cam_amount = 0 ∧
    time_and_distance_in_camera_fov geo radius_arg points
      (track_route geo radius_arg cams points) = .ok (0, 0, []) := by
  have haux := track_route_aux_far geo radius_arg cams points h 0 ⟨true, false, [], [], [], 0⟩
  have hcpp : (track_route geo radius_arg cams points).cameras_per_point = [] := by
    simp only [track_route]
    exact haux.1
  have huni : (track_route geo radius_arg cams points).unique_cameras = [] := by
    simp only [track_route]
    exact haux.2
  constructor
  · simp only [track_route] at huni ⊢
    rw [haux.2]
    rfl
  · simp only [time_and_distance_in_camera_fov, calculate_direction, hcpp, loopFold]
    norm_num

/-- Claim C7, witness: one point at constant kernel distance 100 from a
round camera of default radius 10. -/
theorem claim7_witness :
    (track_route (constGeo 0 100) none [(0, ⟨0, 0, none, kRound, 360, 0⟩)]
      [⟨0, 0, none, none⟩]).cam_amount = 0 ∧
    time_and_distance_in_camera_fov (constGeo 0 100) none [⟨0, 0, none, none⟩]
      (track_route (constGeo 0 100) none [(0, ⟨0, 0, none, kRound, 360, 0⟩)]
        [⟨0, 0, none, none⟩]) = .ok (0, 0, []) :=
  claim7_outside_all (constGeo 0 100) none [(0, ⟨0, 0, none, kRound, 360, 0⟩)]
    [⟨0, 0, none, none⟩] (by with_unfolding_all decide)

/-- `expoGet` returns a duplicate-free visited list from a good state. -/
theorem expoGet_nodup {l : CamExpo} {k : ℕ} (hl : expoNodup l) : (expoGet l k).points.Nodup :=
  alistFind_nodup hl

/-- Marking a point keeps the visited list duplicate-free: the index is
appended only when absent (main.py lines 196-197). -/
theorem entryMark_nodup {e : ExpoEntry} {i : ℕ} (he : e.points.Nodup) :
    (entryMark e i).points.Nodup := by
  unfold entryMark
  split
  · exact he
  · next hmem =>
    simp only []
    rw [List.nodup_append]
    refine ⟨he, List.nodup_singleton _, ?_⟩
    intro a ha hb
    rw [List.mem_singleton] at hb
    subst hb
    exact hmem ha

/-- Inserting the fresh empty accumulator preserves the invariant. -/
theorem expoInsert_nodup {l : CamExpo} {k : ℕ} (hl : expoNodup l) : expoNodup (expoInsert l k) :=
  expo_insert_nodup hl

/-- Accumulating exposure time does not touch any visited list. -/
theorem expoAddTime_nodup {l : CamExpo} {k : ℕ} {t : ℚ} (hl : expoNodup l) :
    expoNodup (expoAddTime l k t) :=
  alistSet_nodup hl (expoGet_nodup hl)

/-- Accumulating exposure distance does not touch any visited list. -/
theorem expoAddDist_nodup {l : CamExpo} {k : ℕ} {d : ℚ} (hl : expoNodup l) :
    expoNodup (expoAddDist l k d) :=
  alistSet_nodup hl (expoGet_nodup hl)

/-- One camera iteration of the exposure pass preserves the invariant. -/
theorem cam_step_nodup (geo : Geo) (radius_arg : Option ℤ) (points : List Point)
    (cpp : List (ℕ × List (ℕ × Camera))) (backward te se : Bool)
    (point_ind other_point : ℕ) (course distance : ℚ) (npts : ℕ)
    (acc : ℚ × ℚ × CamExpo) (c : ℕ × Camera) (out : ℚ × ℚ × CamExpo)
    (hacc : expoNodup acc.2.2)
    (hok : cam_step geo radius_arg points cpp backward te se point_ind other_point
      course distance npts acc c = .ok out) :
    expoNodup out.2.2 := by
  have h1 : expoNodup (expoInsert acc.2.2 c.1) := expoInsert_nodup hacc
  have h2 : expoNodup (alistSet (expoInsert acc.2.2 c.1) c.1
      (entryMark (expoGet (expoInsert acc.2.2 c.1) c.1) point_ind)) :=
    alistSet_nodup h1 (entryMark_nodup (expoGet_nodup h1))
  simp only [cam_step] at hok
  split at hok
  · cases hok
    exact h1
  · split at hok
    · cases hok
    · split at hok
      · cases hok
      · cases hok
        exact expoAddDist_nodup (expoAddTime_nodup h2)

/-- One point iteration of the exposure pass preserves the invariant. -/
theorem point_step_nodup (geo : Geo) (radius_arg : Option ℤ) (points : List Point)
    (cpp : List (ℕ × List (ℕ × Camera))) (backward te se : Bool)
    (acc : ℚ × ℚ × CamExpo) (e : ℕ × List (ℕ × Camera)) (out : ℚ × ℚ × CamExpo)
    (hacc : expoNodup acc.2.2)
    (hok : point_step geo radius_arg points cpp backward te se acc e = .ok out) :
    expoNodup out.2.2 := by
  simp only [point_step] at hok
  split at hok
  · cases hok
    exact hacc
  · split at hok
    · cases hok
    · next out2 heq =>
      cases hok
      exact loopFold_inv _ (fun t => expoNodup t.2.2)
        (fun b a b2 hb hfa => cam_step_nodup geo radius_arg points cpp backward te se
          _ _ _ _ _ b a b2 hb hfa) e.2 _ out2 hacc heq

/-- Claim C8: within one traversal direction of the exposure pass, no
camera's visited-point list ever comes to contain the same track-point index
twice: starting from a state in which every per-camera visited list holds
distinct indices, a completed directional pass again leaves every list with
distinct indices (an index is appended only when not already present,
main.py lines 196-197). -/
theorem claim8_visited_nodup (geo : Geo) (radius_arg : Option ℤ) (points : List Point)
    (cpp : List (ℕ × List (ℕ × Camera))) (te se backward : Bool) (expo0 : CamExpo)
    (out : ℚ × ℚ × CamExpo)
    (h0 : expoNodup expo0)
    (hok : calculate_direction geo radius_arg points cpp te se backward expo0 = .ok out) :
    expoNodup out.2.2 := by
  unfold calculate_direction at hok
  exact loopFold_inv _ (fun t => expoNodup t.2.2)
    (fun b a b2 hb hfa => point_step_nodup geo radius_arg points cpp backward te se b a b2 hb hfa)
    cpp _ out h0 hok

/-- Claim C8, witness: the backward pass over a two-point track with two
round cameras attributes point 1 to camera 1 exactly once. -/
theorem claim8_witness :
    expoNodup [(1, (⟨[1], 9, 9⟩ : ExpoEntry))] :=
  claim8_visited_nodup lineGeo none [⟨0, 0, some 0, none⟩, ⟨0, 10, some 10, none⟩]
    [(0, [(0, ⟨0, 0, some 8, kRound, 360, 0⟩)]), (1, [(1, ⟨0, 10, some 8, kRound, 360, 0⟩)])]
    true false true [] (9, 9, [(1, ⟨[1], 9, 9⟩)])
    (by intro x hx; cases hx) (by with_unfolding_all rfl)

/-- The `speed_enabled` flag after the loop is the disjunction of the
per-point truthiness tests (main.py lines 105-106). -/
theorem track_route_aux_speed (geo : Geo) (radius_arg : Option ℤ) (cams : List (ℕ × Camera)) :
    ∀ (points : List Point) (idx : ℕ) (st : RouteData),
      (track_route_aux geo radius_arg cams idx points st).speed_enabled =
        (st.speed_enabled || points.any (fun p => speedTruthy p.speed)) := by
  intro points
  induction points with
  | nil => intro idx st; simp [track_route_aux]
  | cons p rest ih =>
    intro idx st
    simp only [track_route_aux]
    rw [ih]
    simp only [track_route_step, List.any_cons]
    cases hsp : speedTruthy p.speed <;> simp [hsp]

/-- Speed handling is enabled for the whole track exactly when some point
carries a truthy (present and nonzero) speed. -/
theorem track_route_speed (geo : Geo) (radius_arg : Option ℤ) (cams : List (ℕ × Camera))
    (points : List Point) :
    (track_route geo radius_arg cams points).speed_enabled =
      points.any (fun p => speedTruthy p.speed) := by
  simp only [track_route]
  rw [track_route_aux_speed]
  simp

/-- The loop only records nonempty prediction sets (main.py line 109). -/
theorem track_route_aux_cpp_nonempty (geo : Geo) (radius_arg : Option ℤ)
    (cams : List (ℕ × Camera)) :
    ∀ (points : List Point) (idx : ℕ) (st : RouteData),
      (∀ e ∈ st.cameras_per_point, e.2 ≠ []) →
      ∀ e ∈ (track_route_aux geo radius_arg cams idx points st).cameras_per_point, e.2 ≠ [] := by
  intro points
  induction points with
  | nil => intro idx st h; exact h
  | cons p rest ih =>
    intro idx st h
    simp only [track_route_aux]
    apply ih
    simp only [track_route_step]
    split
    · next hne =>
      intro e he
      rw [List.mem_append] at he
      cases he with
      | inl h2 => exact h e h2
      | inr h2 =>
        rw [List.mem_singleton] at h2
        subst h2
        exact hne
    · exact h

/-- Every entry of `cameras_per_point` holds at least one observing camera. -/
theorem cpp_entries_nonempty (geo : Geo) (radius_arg : Option ℤ) (cams : List (ℕ × Camera))
    (points : List Point) :
    ∀ e ∈ (track_route geo radius_arg cams points).cameras_per_point, e.2 ≠ [] := by
  simp only [track_route]
  exact track_route_aux_cpp_nonempty geo radius_arg cams points 0 _ (by intro e he; cases he)

/-- Claim C10: if some track point carries a nonzero speed, speed handling
is enabled for the whole track, and the exposure pass then reads each
attributed point's own speed field: when the first forward-eligible
attributed point's speed is absent (`None`), the exposure-time computation
raises `TypeError` on the division `... / speed` (main.py line 210, reached
because `None != 0` is `True` in Python) instead of falling back to the
timestamp-difference path. -/
theorem claim10_speed_none_type_error (geo : Geo) (radius_arg : Option ℤ)
    (cams : List (ℕ × Camera)) (points : List Point) (i : ℕ) (cs : List (ℕ × Camera))
    (rest : List (ℕ × List (ℕ × Camera)))
    (hsp : ∃ p ∈ points, speedTruthy p.speed = true)
    (hcpp : (track_route geo radius_arg cams points).cameras_per_point = (i, cs) :: rest)
    (hi : i ≠ points.length - 1)
    (hspeed : (nth points i).speed = none) :
    (track_route geo radius_arg cams points).speed_enabled = true ∧
    calculate_direction geo radius_arg points
      (track_route geo radius_arg cams points).cameras_per_point
      (track_route geo radius_arg cams points).time_enabled
      (track_route geo radius_arg cams points).speed_enabled false [] = .error .typeError := by
  have hse : (track_route geo radius_arg cams points).speed_enabled = true := by
    rw [track_route_speed]
    rw [List.any_eq_true]
    obtain ⟨p, hp, hps⟩ := hsp
    exact ⟨p, hp, hps⟩
  refine ⟨hse, ?_⟩
  have hcs : cs ≠ [] := cpp_entries_nonempty geo radius_arg cams points (i, cs)
    (by rw [hcpp]; exact List.mem_cons_self _ _)
  obtain ⟨c0, cs', hcs'⟩ : ∃ c0 cs', cs = c0 :: cs' := by
    cases cs with
    | nil => exact absurd rfl hcs
    | cons a b => exact ⟨a, b, rfl⟩
  subst hcs'
  rw [hcpp, hse]
  set te := (track_route geo radius_arg cams points).time_enabled with hte
  have hget : expoGet (expoInsert [] c0.1) c0.1 = ⟨[], 0, 0⟩ := by
    simp [expoGet, expoInsert, alistFind]
  have hct : ∀ ps : ℕ, cam_time_of points none ps i (i + 1) = .error .typeError := by
    intro ps
    simp [cam_time_of, speedNe0, pyDivBySpeed]
  have hcam : ∀ course distance npts,
      cam_step geo radius_arg points ((i, c0 :: cs') :: rest) false te true i (i + 1)
        course distance npts (0, 0, []) c0 = .error .typeError := by
    intro course distance npts
    simp only [cam_step, hget]
    rw [if_neg (by simp)]
    rw [show speed_of points te true distance i (i + 1) = .ok none by
      simp [speed_of, hspeed]]
    dsimp only
    rw [hct]
  have hpoint : point_step geo radius_arg points ((i, c0 :: cs') :: rest) false te true
      (0, 0, []) (i, c0 :: cs') = .error .typeError := by
    simp only [point_step]
    rw [if_neg (by simp)]
    rw [if_pos hi]
    dsimp only
    simp only [loopFold]
    rw [hcam]
  simp only [calculate_direction, loopFold]
  rw [hpoint]

/-- Claim C10, witness: point 0 has no speed, point 1 has speed 5; both are
observed by the camera (constant distance 0), so the forward pass raises
`TypeError` at point 0. -/
theorem claim10_witness :
    (track_route (constGeo 0 0) none [(0, ⟨0, 0, some 8, kRound, 360, 0⟩)]
      [⟨0, 0, some 0, none⟩, ⟨0, 1, some 10, some 5⟩]).speed_enabled = true ∧
    calculate_direction (constGeo 0 0) none [⟨0, 0, some 0, none⟩, ⟨0, 1, some 10, some 5⟩]
      (track_route (constGeo 0 0) none [(0, ⟨0, 0, some 8, kRound, 360, 0⟩)]
        [⟨0, 0, some 0, none⟩, ⟨0, 1, some 10, some 5⟩]).cameras_per_point
      (track_route (constGeo 0 0) none [(0, ⟨0, 0, some 8, kRound, 360, 0⟩)]
        [⟨0, 0, some 0, none⟩, ⟨0, 1, some 10, some 5⟩]).time_enabled
      (track_route (constGeo 0 0) none [(0, ⟨0, 0, some 8, kRound, 360, 0⟩)]
        [⟨0, 0, some 0, none⟩, ⟨0, 1, some 10, some 5⟩]).speed_enabled
      false [] = .error .typeError :=
  claim10_speed_none_type_error (constGeo 0 0) none
    [(0, ⟨0, 0, some 8, kRound, 360, 0⟩)]
    [⟨0, 0, some 0, none⟩, ⟨0, 1, some 10, some 5⟩]
    0 [(0, ⟨0, 0, some 8, kRound, 360, 0⟩)] [(1, [(0, ⟨0, 0, some 8, kRound, 360, 0⟩)])]
    (by with_unfolding_all decide)
    (by with_unfolding_all rfl)
    (by decide)
    (by with_unfolding_all rfl)

/-- Claim C9: for every camera record loaded from the CSV catalog whose
`camera type` is `directed` with parsed angle of view < 360, any point that
passes the radius check makes the FOV test raise `TypeError` rather than
return a boolean: the `direction` field is the raw CSV string (or absent),
and `direction - angle / 2` (main.py line 137) is `str - float` or
`NoneType - float`. -/
theorem claim9_direction_type_error (geo : Geo) (radius_arg : Option ℤ) (d : ℚ)
    (columns : List String) (rows : List (List String))
    (cams : List (ℕ × List (String × String))) (i : ℕ) (cam : List (String × String))
    (lat lon addon fov : ℚ) (angle : ℤ)
    (hload : load_cameras columns rows = .ok cams)
    (hmem : (i, cam) ∈ cams)
    (hty : (alistGet cam kCameraType).getD kRound = kDirected)
    (hang : pyInt ((alistGet cam kAngleOfView).getD "360") = .ok angle)
    (hlt : angle < 360)
    (hfov : effective_fov_raw radius_arg cam = .ok fov)
    (hd : d ≤ fov + addon) :
    check_dist_to_cam_raw geo radius_arg d cam lat lon addon = .error .typeError := by
  simp only [check_dist_to_cam_raw]
  rw [hfov]
  dsimp only
  rw [if_pos hd, hty]
  rw [if_neg (by decide), if_pos rfl]
  rw [hang]
  dsimp only
  rw [if_pos hlt]
  rfl

/-- Claim C9, witness: a directed camera with angle 90 loaded from a
five-column CSV row; a point at distance 5 of the default radius 10. -/
theorem claim9_witness :
    check_dist_to_cam_raw (constGeo 0 0) none 5
      [(kLatitude, "1"), (kLongitude, "2"), (kCameraType, "directed"),
        (kAngleOfView, "90"), (kDirection, "45")] 0 0 0 = .error .typeError :=
  claim9_direction_type_error (constGeo 0 0) none 5
    [kLatitude, kLongitude, kCameraType, kAngleOfView, kDirection]
    [["1", "2", "directed", "90", "45"]]
    [(0, [(kLatitude, "1"), (kLongitude, "2"), (kCameraType, "directed"),
      (kAngleOfView, "90"), (kDirection, "45")])]
    0
    [(kLatitude, "1"), (kLongitude, "2"), (kCameraType, "directed"),
      (kAngleOfView, "90"), (kDirection, "45")]
    0 0 0 10 90
    (by with_unfolding_all rfl)
    (by with_unfolding_all decide)
    (by with_unfolding_all rfl)
    (by with_unfolding_all rfl)
    (by decide)
    (by with_unfolding_all rfl)
    (by with_unfolding_all decide)

/-- Python `round` of a nonnegative number is nonnegative. -/
theorem pyRound_nonneg {q : ℚ} (h : 0 ≤ q) : 0 ≤ pyRound q := by
  have hf : (0 : ℤ) ≤ ⌊q⌋ := Int.floor_nonneg.mpr h
  simp only [pyRound]
  split_ifs <;> omega

/-- `round(x, 2)` of a nonnegative number is nonnegative. -/
theorem pyRound2_nonneg {q : ℚ} (h : 0 ≤ q) : 0 ≤ pyRound2 q := by
  unfold pyRound2
  apply div_nonneg _ (by norm_num)
  exact_mod_cast pyRound_nonneg (mul_nonneg h (by norm_num))

/-- The `highest` accumulators only move upward from a nonnegative start
(main.py lines 213-214, 218-219). -/
theorem ite_gt_nonneg {a b : ℚ} (h : 0 ≤ a) : 0 ≤ if b > a then b else a := by
  split
  · next hgt => exact le_of_lt (lt_of_le_of_lt h hgt)
  · exact h

/-- One camera step keeps the per-point maxima nonnegative. -/
theorem cam_step_nonneg (geo : Geo) (radius_arg : Option ℤ) (points : List Point)
    (cpp : List (ℕ × List (ℕ × Camera))) (backward te se : Bool)
    (point_ind other_point : ℕ) (course distance : ℚ) (npts : ℕ)
    (acc : ℚ × ℚ × CamExpo) (c : ℕ × Camera) (out : ℚ × ℚ × CamExpo)
    (h1 : 0 ≤ acc.1) (h2 : 0 ≤ acc.2.1)
    (hok : cam_step geo radius_arg points cpp backward te se point_ind other_point
      course distance npts acc c = .ok out) :
    0 ≤ out.1 ∧ 0 ≤ out.2.1 := by
  simp only [cam_step] at hok
  split at hok
  · cases hok
    exact ⟨h1, h2⟩
  · split at hok
    · cases hok
    · split at hok
      · cases hok
      · cases hok
        exact ⟨ite_gt_nonneg h1, ite_gt_nonneg h2⟩

/-- One point step keeps the pass totals nonnegative. -/
theorem point_step_nonneg (geo : Geo) (radius_arg : Option ℤ) (points : List Point)
    (cpp : List (ℕ × List (ℕ × Camera))) (backward te se : Bool)
    (acc : ℚ × ℚ × CamExpo) (e : ℕ × List (ℕ × Camera)) (out : ℚ × ℚ × CamExpo)
    (h1 : 0 ≤ acc.1) (h2 : 0 ≤ acc.2.1)
    (hok : point_step geo radius_arg points cpp backward te se acc e = .ok out) :
    0 ≤ out.1 ∧ 0 ≤ out.2.1 := by
  simp only [point_step] at hok
  split at hok
  · cases hok
    exact ⟨h1, h2⟩
  · split at hok
    · cases hok
    · next out2 heq =>
      cases hok
      have hin := loopFold_inv _ (fun t : ℚ × ℚ × CamExpo => 0 ≤ t.1 ∧ 0 ≤ t.2.1)
        (fun b a b2 hb hfa => cam_step_nonneg geo radius_arg points cpp backward te se
          _ _ _ _ _ b a b2 hb.1 hb.2 hfa) e.2 _ out2 ⟨le_refl 0, le_refl 0⟩ heq
      exact ⟨add_nonneg h1 hin.1, add_nonneg h2 hin.2⟩

/-- A completed directional pass reports nonnegative totals. -/
theorem calculate_direction_nonneg (geo : Geo) (radius_arg : Option ℤ) (points : List Point)
    (cpp : List (ℕ × List (ℕ × Camera))) (te se backward : Bool) (expo0 : CamExpo)
    (out : ℚ × ℚ × CamExpo)
    (hok : calculate_direction geo radius_arg points cpp te se backward expo0 = .ok out) :
    0 ≤ out.1 ∧ 0 ≤ out.2.1 := by
  unfold calculate_direction at hok
  exact loopFold_inv _ (fun t : ℚ × ℚ × CamExpo => 0 ≤ t.1 ∧ 0 ≤ t.2.1)
    (fun b a b2 hb hfa => point_step_nonneg geo radius_arg points cpp backward te se
      b a b2 hb.1 hb.2 hfa) cpp _ out ⟨le_refl 0, le_refl 0⟩ hok

/-- The combined two-pass totals are nonnegative. -/
theorem time_and_distance_nonneg (geo : Geo) (radius_arg : Option ℤ) (points : List Point)
    (rd : RouteData) (dt : ℚ × ℚ × CamExpo)
    (hok : time_and_distance_in_camera_fov geo radius_arg points rd = .ok dt) :
    0 ≤ dt.1 ∧ 0 ≤ dt.2.1 := by
  simp only [time_and_distance_in_camera_fov] at hok
  split at hok
  · cases hok
  · next b heqb =>
    split at hok
    · cases hok
    · next f heqf =>
      cases hok
      have hb := calculate_direction_nonneg _ _ _ _ _ _ _ _ _ heqb
      have hf := calculate_direction_nonneg _ _ _ _ _ _ _ _ _ heqf
      exact ⟨add_nonneg hb.1 hf.1, add_nonneg hb.2 hf.2⟩

/-- A division with a nonzero denominator succeeds. -/
theorem pyDiv_ok {a b : ℚ} (h : b ≠ 0) : pyDiv a b = .ok (a / b) := by
  simp [pyDiv, h]

/-- Claim C5, counterexample: a non-degenerate two-point track (total
distance 10 m, total time 10 s) with two 8 m round cameras, one at each
endpoint, reports a distance-exposure percentage and a time-exposure
percentage of 180, outside [0, 100]: the backward pass probes 9 m of the gap
from point 1 toward point 0 for camera 1, the forward pass 9 m of the same
gap from point 0 toward point 1 for camera 0, and stage C sums the two
passes. -/
theorem claim5_counterexample :
    main_stats lineGeo none
      [(0, ⟨0, 0, some 8, kRound, 360, 0⟩), (1, ⟨0, 10, some 8, kRound, 360, 0⟩)]
      [⟨0, 0, some 0, none⟩, ⟨0, 10, some 10, none⟩] =
      .ok ⟨10, 2, 18, 180, 5, 5, some ⟨18 / 5, 180, 18⟩, none⟩ ∧
    0 < get_total_distance lineGeo [⟨0, 0, some 0, none⟩, ⟨0, 10, some 10, none⟩] ∧
    0 < total_time [⟨0, 0, some 0, none⟩, ⟨0, 10, some 10, none⟩] true ∧
    ¬ ((180 : ℚ) ≤ 100) :=
  ⟨by with_unfolding_all rfl, by with_unfolding_all decide,
    by with_unfolding_all decide, by with_unfolding_all decide⟩

/-- Claim C5 (amended): for every non-degenerate input (total distance > 0,
and total time > 0 when timestamps are present), the reported
distance-exposure percentage and time-exposure percentage are both
nonnegative; the upper bound 100 does not hold, because the forward and
backward passes can each attribute overlapping parts of the same inter-point
gap and stage C sums them. -/
theorem claim5_amended (geo : Geo) (radius_arg : Option ℤ) (cams : List (ℕ × Camera))
    (points : List Point) (r : Report)
    (hok : main_stats geo radius_arg cams points = .ok r)
    (hd : 0 < get_total_distance geo points)
    (ht : (track_route geo radius_arg cams points).time_enabled = true →
      0 < total_time points (track_route geo radius_arg cams points).time_enabled) :
    0 ≤ r.dist_percentage ∧ timePercNonneg r.time_part := by
  simp only [main_stats] at hok
  split at hok
  · cases hok
  · next dt heqdt =>
    have hnn := time_and_distance_nonneg _ _ _ _ _ heqdt
    split at hok
    · cases hok
    · next dp0 heqdp =>
      split at hok
      · cases hok
      · next tb heqtb =>
        cases hok
        have hdp0 : dp0 = dt.1 / get_total_distance geo points := by
          rw [pyDiv_ok (ne_of_gt hd)] at heqdp
          cases heqdp
          rfl
        constructor
        · dsimp only
          apply pyRound2_nonneg
          rw [hdp0]
          exact mul_nonneg (div_nonneg hnn.1 (le_of_lt hd)) (by norm_num)
        · dsimp only
          cases hte : (track_route geo radius_arg cams points).time_enabled with
          | false =>
            rw [hte] at heqtb
            simp only [time_block, Bool.false_eq_true, if_false] at heqtb
            cases heqtb
            exact trivial
          | true =>
            rw [hte] at heqtb ht
            have htt := ht rfl
            simp only [time_block, if_true] at heqtb
            rw [pyDiv_ok (ne_of_gt htt)] at heqtb
            rw [pyDiv_ok (ne_of_gt htt)] at heqtb
            cases heqtb
            simp only [timePercNonneg]
            apply pyRound2_nonneg
            exact mul_nonneg (div_nonneg hnn.2 (le_of_lt htt)) (by norm_num)

/-- Claim C5, witness for the amended theorem: the two-camera two-point run
reports percentages 180 and 180, both nonnegative. -/
theorem claim5_witness :
    0 ≤ (⟨10, 2, 18, 180, 5, 5, some ⟨18 / 5, 180, 18⟩, none⟩ : Report).dist_percentage ∧
    timePercNonneg
      (⟨10, 2, 18, 180, 5, 5, some ⟨18 / 5, 180, 18⟩, none⟩ : Report).time_part :=
  claim5_amended lineGeo none
    [(0, ⟨0, 0, some 8, kRound, 360, 0⟩), (1, ⟨0, 10, some 8, kRound, 360, 0⟩)]
    [⟨0, 0, some 0, none⟩, ⟨0, 10, some 10, none⟩]
    ⟨10, 2, 18, 180, 5, 5, some ⟨18 / 5, 180, 18⟩, none⟩
    (by with_unfolding_all rfl)
    (by with_unfolding_all decide)
    (by with_unfolding_all decide)

end CCTV
